import Mathlib

/-!
Verification of the Opencode Model Configurator core
(`config_manager.py` and `cli.py`) against its specification.

The JSON configuration document is embedded shallowly:

* JSON dictionaries become association lists `List (String × _)`
  (Python dicts preserve insertion order; insertion of a fresh key
  appends, assignment to an existing key replaces in place).
* An absent key (`"provider"`, `"models"`) is an `Option` that is `none`;
  `config.get(k, {})` is `Option.getD _ []`.
* Model records are flat JSON objects `List (String × JVal)`; the
  reconciliation engine never inspects them, it only moves them around
  or builds the default record `{"name": id}`.
* File I/O is abstracted away: every operation is a pure function from
  the loaded document to either an error (in Python, a raised exception
  before `save_config`, leaving the persisted file untouched) or the
  document that gets saved.
-/

/-- A flat JSON scalar value, enough to populate model/provider records. -/
inductive JVal where
  | str (s : String)
  | num (n : Int)
  | boolean (b : Bool)
  | null
deriving DecidableEq, Repr

/-- A stored model record: a flat JSON object (e.g. `{"name": ...}` plus
any extra opaque fields). -/
abbrev ModelRecord := List (String × JVal)

/-- The minimal record `update_provider_models` inserts for a newly
discovered model id: `{"name": model_id}` (config_manager.py line 252). -/
def defaultModelRecord (model_id : String) : ModelRecord :=
  [("name", JVal.str model_id)]

/-- A provider entry: its `"models"` sub-dictionary (absent key = `none`)
plus the remaining fields (`npm`, `name`, `options`, ...), which the
operations under verification never touch. -/
structure Provider where
  models? : Option (List (String × ModelRecord)) := none
  extra : List (String × JVal) := []
deriving DecidableEq, Repr

/-- The configuration document: the `"model"` selection string, the
`"provider"` dictionary (absent key = `none`), and any other top-level
fields. -/
structure Document where
  model? : Option String := none
  provider? : Option (List (String × Provider)) := none
  extra : List (String × JVal) := []
deriving DecidableEq, Repr

/-- Counts returned by `update_provider_models`
(config_manager.py lines 259-263). -/
structure UpdateResult where
  added : Nat
  removed : Nat
  preserved : Nat
deriving DecidableEq, Repr

/-- The `ValueError`s raised by `ConfigManager` mutators. -/
inductive ConfigError where
  | providerNotFound (provider_id : String)
  | modelNotFound (model_id : String)
deriving DecidableEq, Repr

/-- The failure exits of `cli.change_model` (cli.py lines 94-114):
missing `/` in the argument, or a provider/model pair that fails
validation. Both paths `sys.exit(1)` before any save. -/
inductive ChangeError where
  | invalidFormat
  | invalidSelection (provider_id model_id : String)
deriving DecidableEq, Repr

/-- Python dict assignment `d[k] = v` on an association list: replace the
value at the first occurrence of `k` in place, or append `(k, v)` if `k`
is absent. -/
def alistSet {α : Type} (l : List (String × α)) (k : String) (v : α) :
    List (String × α) :=
  match l with
  | [] => [(k, v)]
  | (k', v') :: rest =>
      if k' = k then (k, v) :: rest else (k', v') :: alistSet rest k v

/-- `get_model` (config_manager.py lines 49-57): `config.get("model", "")`. -/
def get_model (doc : Document) : String :=
  doc.model?.getD ""

/-- `update_model` (config_manager.py lines 59-68): overwrite the
`"model"` field and save. -/
def update_model (doc : Document) (model : String) : Document :=
  { doc with model? := some model }

/-- `get_providers` (config_manager.py lines 70-78):
`config.get("provider", {})`. -/
def get_providers (doc : Document) : List (String × Provider) :=
  doc.provider?.getD []

/-- `get_all_models` (config_manager.py lines 117-129): provider id to
the list of its model ids (`list(models.keys())`, with
`models = provider_config.get("models", {})`). -/
def get_all_models (doc : Document) : List (String × List String) :=
  (get_providers doc).map (fun x => (x.1, (x.2.models?.getD []).map Prod.fst))

/-- `find_providers_for_model` (config_manager.py lines 131-141). -/
def find_providers_for_model (doc : Document) (model_id : String) :
    List String :=
  ((get_all_models doc).filter (fun x => decide (model_id ∈ x.2))).map Prod.fst

/-- `validate_provider_model` (config_manager.py lines 143-156): the
provider's model-id list (default `[]`) contains the model id. -/
def validate_provider_model (doc : Document) (provider_id model_id : String) :
    Bool :=
  let provider_models := ((get_all_models doc).lookup provider_id).getD []
  decide (model_id ∈ provider_models)

/-- The model dictionary stored for a provider in a document (empty if the
provider or its `"models"` key is absent); projection used to state the
reconciliation theorems. -/
def getProviderModels (doc : Document) (provider_id : String) :
    List (String × ModelRecord) :=
  match (get_providers doc).lookup provider_id with
  | none => []
  | some p => p.models?.getD []

/-- The pure reconciliation step of `update_provider_models`
(config_manager.py lines 237-255): classify ids into
`to_remove = existing − fetched`, `to_add = fetched − existing`,
delete the removed entries, append a default record for each added id,
and report `(added, removed, preserved)` counts. `List.dedup` plays the
role of Python's `set(...)` (first occurrences, duplicates collapsed). -/
def reconcile (existing : List (String × ModelRecord)) (new_model_ids : List String) :
    List (String × ModelRecord) × UpdateResult :=
  let fetchedIds := new_model_ids.dedup
  let existingIds := (existing.map Prod.fst).dedup
  let toRemove := existingIds.filter (fun i => decide (i ∉ fetchedIds))
  let toAdd := fetchedIds.filter (fun i => decide (i ∉ existingIds))
  let preservedCount := (existingIds.filter (fun i => decide (i ∈ fetchedIds))).length
  let models' := existing.filter (fun kv => decide (kv.1 ∈ fetchedIds)) ++
      toAdd.map (fun i => (i, defaultModelRecord i))
  (models', ⟨toAdd.length, toRemove.length, preservedCount⟩)

/-- `update_provider_models` (config_manager.py lines 212-263): fail with
`ProviderNotFound` when the provider is absent, otherwise reconcile its
stored models with the fetched id list, reattach the (possibly freshly
created) `"models"` dictionary, and save. -/
def update_provider_models (doc : Document) (provider_id : String)
    (new_model_ids : List String) :
    Except ConfigError (Document × UpdateResult) :=
  let providers := get_providers doc
  match providers.lookup provider_id with
  | none => .error (.providerNotFound provider_id)
  | some prov =>
      let r := reconcile (prov.models?.getD []) new_model_ids
      let prov' := { prov with models? := some r.1 }
      .ok ({ doc with provider? := some (alistSet providers provider_id prov') }, r.2)

/-- One provider's step of `delete_model`'s loop (config_manager.py lines
184-188): `models = provider_config.get("models", {})` (a fresh dict when
the key is absent, so nothing is mutated then), delete the entry when
present, and report whether it was found. -/
def deleteModelFromProvider (p : Provider) (model_id : String) :
    Provider × Bool :=
  match p.models? with
  | none => (p, false)
  | some ms =>
      if model_id ∈ ms.map Prod.fst then
        ({ p with models? := some (ms.filter (fun kv => decide (kv.1 ≠ model_id))) }, true)
      else (p, false)

/-- `delete_model` (config_manager.py lines 173-191): remove the model id
from every provider containing it; raise `ValueError` (before any save)
if no provider contains it. -/
def delete_model (doc : Document) (model_id : String) :
    Except ConfigError Document :=
  let processed := (get_providers doc).map
      (fun x => (x.1, deleteModelFromProvider x.2 model_id))
  if processed.any (fun x => x.2.2) then
    .ok { doc with provider? := some (processed.map (fun x => (x.1, x.2.1))) }
  else
    .error (.modelNotFound model_id)

/-- Whether any provider's model dictionary contains the id. -/
def modelExistsSomewhere (doc : Document) (model_id : String) : Bool :=
  (get_providers doc).any
    (fun x => decide (model_id ∈ (x.2.models?.getD []).map Prod.fst))

/-- `model_value.split("/", 1)` on the character list: split at the first
`'/'`, `none` when there is none (the cli's `"/" not in model_value`
guard). -/
def splitFirstAux : List Char → Option (List Char × List Char)
  | [] => none
  | c :: cs =>
      if c = '/' then some ([], cs)
      else (splitFirstAux cs).map (fun p => (c :: p.1, p.2))

/-- `model_value.split("/", 1)` as used by `cli.change_model`. -/
def splitFirst (s : String) : Option (String × String) :=
  (splitFirstAux s.data).map (fun p => (String.mk p.1, String.mk p.2))

/-- The exact set of characters CPython's `str.strip()` removes
(`Py_UNICODE_ISSPACE`): tab, LF, VT, FF, CR, the four information
separators `\x1c`-`\x1f`, space, NEL `\x85`, NBSP `\xa0`, and the
Unicode space/line/paragraph separators. -/
def pyWhitespace : List Char :=
  ['\t', '\n', '\x0b', '\x0c', '\r', '\x1c', '\x1d', '\x1e', '\x1f', ' ',
   '\x85', '\xa0', '\u1680', '\u2000', '\u2001', '\u2002', '\u2003',
   '\u2004', '\u2005', '\u2006', '\u2007', '\u2008', '\u2009', '\u200a',
   '\u2028', '\u2029', '\u202f', '\u205f', '\u3000']

/-- Whether `str.strip()` removes this character. -/
def pyIsSpace (c : Char) : Bool :=
  decide (c ∈ pyWhitespace)

/-- Python `str.strip()` on the character list: drop leading and trailing
whitespace characters. -/
def stripChars (cs : List Char) : List Char :=
  ((cs.dropWhile pyIsSpace).reverse.dropWhile pyIsSpace).reverse

/-- Python `str.strip()` as used by `cli.change_model` on the two halves
of the `provider_id/model_id` argument. -/
def pyStrip (s : String) : String :=
  String.mk (stripChars s.data)

/-- `cli.change_model` (cli.py lines 83-121): reject when no `/` occurs;
split at the first `/`, `strip()` both parts; reject when
`validate_provider_model` fails; otherwise persist the normalized
`provider_id/model_id` string via `update_model`. -/
def change_model (doc : Document) (model_value : String) :
    Except ChangeError Document :=
  match splitFirst model_value with
  | none => .error .invalidFormat
  | some parts =>
      let provider_id := pyStrip parts.1
      let model_id := pyStrip parts.2
      if validate_provider_model doc provider_id model_id then
        .ok (update_model doc (provider_id ++ "/" ++ model_id))
      else
        .error (.invalidSelection provider_id model_id)

/-- A filesystem path, as a list of components. -/
abbrev FsPath := List String

/-- `ConfigManager.__init__` (config_manager.py lines 13-22): the backing
path is the argument when supplied, else `Path.cwd() / "config.json"`. -/
def configManagerInitPath (config_path : Option FsPath) (cwd : FsPath) : FsPath :=
  config_path.getD (cwd ++ ["config.json"])

/-- The default the CLI entry point supplies (cli.py line 371):
`Path.home() / ".config" / "opencode" / "config.json"`. -/
def cliDefaultConfigPath (home : FsPath) : FsPath :=
  home ++ [".config", "opencode", "config.json"]

/-- `cli.main` (cli.py lines 371-373): use `--config` when given, else the
per-user default. -/
def mainConfigPath (argConfig : Option FsPath) (home : FsPath) : FsPath :=
  argConfig.getD (cliDefaultConfigPath home)

/-! ### Concrete scenario documents used by the claim witnesses -/

/-- Concrete witness for C2: a document with one provider holding
`model1` and `model2`, reconciled twice against `["model2", "model3"]`. -/
def c2Doc : Document :=
  { model? := some "provider1/model1",
    provider? := some [("provider1",
      { models? := some [("model1", [("name", JVal.str "Model One")]),
                         ("model2", [("name", JVal.str "Model Two"),
                                     ("temperature", JVal.num 1)])],
        extra := [("npm", JVal.str "@ai-sdk/openai-compatible")] })],
    extra := [] }

/-- The document produced by the first reconciliation run on `c2Doc`. -/
def c2Doc₁ : Document :=
  { model? := some "provider1/model1",
    provider? := some [("provider1",
      { models? := some [("model2", [("name", JVal.str "Model Two"),
                                     ("temperature", JVal.num 1)]),
                         ("model3", [("name", JVal.str "model3")])],
        extra := [("npm", JVal.str "@ai-sdk/openai-compatible")] })],
    extra := [] }

/-- The spec scenario for C1: `provider1` with models `model1` and
`model2` (the latter with a custom display name and an extra field). -/
def c1Prov : Provider :=
  { models? := some [("model1", [("name", JVal.str "Model One")]),
                     ("model2", [("name", JVal.str "My Custom Name"),
                                 ("extra_field", JVal.boolean true)])],
    extra := [] }

def c1Doc : Document :=
  { model? := none, provider? := some [("provider1", c1Prov)], extra := [] }

/-- Scenario for C3: a stored model with a custom display name and an
extra opaque field. -/
def c3Record : ModelRecord :=
  [("name", JVal.str "Friendly Name"), ("context", JVal.num 32768)]

def c3Prov : Provider :=
  { models? := some [("modelA", c3Record)], extra := [] }

def c3Doc : Document :=
  { model? := none, provider? := some [("providerA", c3Prov)], extra := [] }

/-- Scenario for C10: a provider record with no `"models"` key. -/
def c10Prov : Provider :=
  { models? := none, extra := [("name", JVal.str "Fresh Provider")] }

def c10Doc : Document :=
  { model? := none, provider? := some [("providerN", c10Prov)], extra := [] }

/-- Scenario for C6: `p1` stores `m1` and `m2`; the fetched list repeats
`m3`. -/
def c6Doc : Document :=
  { model? := none,
    provider? := some [("p1",
      { models? := some [("m1", [("name", JVal.str "m1")]),
                         ("m2", [("name", JVal.str "m2")])],
        extra := [] })],
    extra := [] }

def c6Doc' : Document :=
  { model? := none,
    provider? := some [("p1",
      { models? := some [("m2", [("name", JVal.str "m2")]),
                         ("m3", [("name", JVal.str "m3")])],
        extra := [] })],
    extra := [] }

/-- The provider list produced by a successful `delete_model` run: each
provider processed by `deleteModelFromProvider`, keeping its key. -/
def deletedProviders (doc : Document) (mid : String) : List (String × Provider) :=
  ((get_providers doc).map (fun x => (x.1, deleteModelFromProvider x.2 mid))).map
    (fun x => (x.1, x.2.1))

/-- Scenario for C4: `m-shared` lives in two providers, `m-only` in one,
`m-none` in none. -/
def c4Doc : Document :=
  { model? := some "pA/m-shared",
    provider? := some
      [("pA", { models? := some [("m-shared", [("name", JVal.str "S in A")]),
                                 ("m-only", [("name", JVal.str "Only")])],
                extra := [] }),
       ("pB", { models? := some [("m-shared", [("name", JVal.str "S in B")])],
                extra := [] })],
    extra := [] }

/-- Scenario for C8: a document with a selection but no `providers`
section at all. -/
def c8Doc : Document :=
  { model? := some "x/y", provider? := none, extra := [] }

/-- Scenario for C5: `provider1` has only `model2`. -/
def c5Doc : Document :=
  { model? := some "provider1/model2",
    provider? := some [("provider1",
      { models? := some [("model2", [("name", JVal.str "m2")])], extra := [] })],
    extra := [] }

/-- Scenario for C9: the stored model id itself contains a `/`. -/
def c9Doc : Document :=
  { model? := none,
    provider? := some [("providerZ",
      { models? := some [("qwen/3-32b", [("name", JVal.str "Qwen")])],
        extra := [] })],
    extra := [] }

/-! ### Association-list lemmas -/

theorem lookup_eq_none_iff {α : Type} (l : List (String × α)) (k : String) :
    l.lookup k = none ↔ k ∉ l.map Prod.fst := by
  induction l with
  | nil => simp
  | cons kv rest ih =>
      obtain ⟨k', v'⟩ := kv
      by_cases h : k = k'
      · subst h
        simp [List.lookup_cons]
      · have hb : (k == k') = false := beq_eq_false_iff_ne.mpr h
        rw [List.lookup_cons, hb]
        simp only [List.map_cons, List.mem_cons]
        rw [ih]
        constructor
        · intro hk hor
          rcases hor with h1 | h2
          · exact h h1
          · exact hk h2
        · intro hk h2
          exact hk (Or.inr h2)

theorem lookup_append_of_some {α : Type} {l₁ : List (String × α)}
    (l₂ : List (String × α)) {k : String} {v : α}
    (h : l₁.lookup k = some v) : (l₁ ++ l₂).lookup k = some v := by
  induction l₁ with
  | nil => simp [List.lookup_nil] at h
  | cons kv rest ih =>
      obtain ⟨k', v'⟩ := kv
      rw [List.lookup_cons] at h
      rw [List.cons_append, List.lookup_cons]
      cases hb : (k == k') with
      | true => rw [hb] at h; exact h
      | false =>
          rw [hb] at h
          exact ih h

theorem lookup_append_of_none {α : Type} {l₁ : List (String × α)}
    (l₂ : List (String × α)) {k : String}
    (h : l₁.lookup k = none) : (l₁ ++ l₂).lookup k = l₂.lookup k := by
  induction l₁ with
  | nil => rfl
  | cons kv rest ih =>
      obtain ⟨k', v'⟩ := kv
      rw [List.lookup_cons] at h
      rw [List.cons_append, List.lookup_cons]
      cases hb : (k == k') with
      | true => rw [hb] at h; exact absurd h (by simp)
      | false =>
          rw [hb] at h
          exact ih h

theorem lookup_filter {α : Type} (l : List (String × α)) (p : String × α → Bool)
    (k : String) (hp : ∀ v, p (k, v) = true) :
    (l.filter p).lookup k = l.lookup k := by
  induction l with
  | nil => rfl
  | cons kv rest ih =>
      obtain ⟨k', v'⟩ := kv
      by_cases hk : k = k'
      · subst hk
        rw [List.filter_cons, if_pos (hp v'), List.lookup_cons, List.lookup_cons,
          beq_self_eq_true]
      · have hb : (k == k') = false := beq_eq_false_iff_ne.mpr hk
        rw [List.filter_cons]
        by_cases hpv : p (k', v') = true
        · rw [if_pos hpv, List.lookup_cons, List.lookup_cons, hb]
          exact ih
        · rw [if_neg hpv, List.lookup_cons, hb]
          exact ih

theorem lookup_map_key {α : Type} (f : String → α) (l : List String) (k : String) :
    (l.map (fun i => (i, f i))).lookup k =
      if k ∈ l then some (f k) else none := by
  induction l with
  | nil => simp
  | cons a rest ih =>
      by_cases hk : k = a
      · subst hk
        simp [List.lookup_cons]
      · have hb : (k == a) = false := beq_eq_false_iff_ne.mpr hk
        rw [List.map_cons, List.lookup_cons, hb, ih]
        simp [hk]

theorem alistSet_lookup_self {α : Type} (l : List (String × α)) (k : String) (v : α) :
    (alistSet l k v).lookup k = some v := by
  induction l with
  | nil => simp [alistSet, List.lookup_cons]
  | cons kv rest ih =>
      obtain ⟨k', v'⟩ := kv
      rw [alistSet]
      by_cases h : k' = k
      · rw [if_pos h, List.lookup_cons, beq_self_eq_true]
      · rw [if_neg h]
        have hb : (k == k') = false := beq_eq_false_iff_ne.mpr (fun he => h he.symm)
        rw [List.lookup_cons, hb]
        exact ih

theorem alistSet_eq_self {α : Type} {l : List (String × α)} {k : String} {v : α}
    (h : l.lookup k = some v) : alistSet l k v = l := by
  induction l with
  | nil => simp [List.lookup_nil] at h
  | cons kv rest ih =>
      obtain ⟨k', v'⟩ := kv
      rw [List.lookup_cons] at h
      rw [alistSet]
      by_cases hk : k' = k
      · subst hk
        rw [beq_self_eq_true] at h
        have : v' = v := by simpa using h
        rw [if_pos rfl, this]
      · have hb : (k == k') = false := beq_eq_false_iff_ne.mpr (fun he => hk he.symm)
        rw [hb] at h
        rw [if_neg hk, ih h]

/-! ### Reconciliation lemmas -/

theorem reconcile_eq (existing : List (String × ModelRecord)) (ids : List String) :
    reconcile existing ids =
      (existing.filter (fun kv => decide (kv.1 ∈ ids.dedup)) ++
        ((ids.dedup.filter
            (fun i => decide (i ∉ (existing.map Prod.fst).dedup))).map
          (fun i => (i, defaultModelRecord i))),
       ⟨(ids.dedup.filter
            (fun i => decide (i ∉ (existing.map Prod.fst).dedup))).length,
        ((existing.map Prod.fst).dedup.filter
            (fun i => decide (i ∉ ids.dedup))).length,
        ((existing.map Prod.fst).dedup.filter
            (fun i => decide (i ∈ ids.dedup))).length⟩) := rfl

theorem mem_keys_reconcile (existing : List (String × ModelRecord))
    (ids : List String) (k : String) :
    k ∈ (reconcile existing ids).1.map Prod.fst ↔ k ∈ ids := by
  rw [reconcile_eq]
  simp only [List.map_append, List.map_map, List.mem_append, List.mem_map,
    List.mem_filter, List.mem_dedup, decide_eq_true_eq, Function.comp]
  constructor
  · rintro (⟨a, ⟨_, hin⟩, rfl⟩ | ⟨a, ⟨ha, _⟩, rfl⟩)
    · exact hin
    · exact ha
  · intro hk
    by_cases he : ∃ e ∈ existing, e.1 = k
    · left
      obtain ⟨e, he1, he2⟩ := he
      exact ⟨e, ⟨he1, he2 ▸ hk⟩, he2⟩
    · right
      exact ⟨k, ⟨hk, he⟩, rfl⟩

theorem length_dedup_filter_eq_card (l : List String) (p : String → Bool) :
    (l.dedup.filter p).length = (l.dedup.filter p).toFinset.card := by
  have hnd : (l.dedup.filter p).Nodup := (List.nodup_dedup l).filter p
  rw [List.card_toFinset, List.dedup_eq_self.mpr hnd]

theorem reconcile_counts (existing : List (String × ModelRecord)) (ids : List String) :
    (reconcile existing ids).2 =
      ⟨(ids.toFinset \ (existing.map Prod.fst).toFinset).card,
       ((existing.map Prod.fst).toFinset \ ids.toFinset).card,
       ((existing.map Prod.fst).toFinset ∩ ids.toFinset).card⟩ := by
  rw [reconcile_eq]
  simp only [UpdateResult.mk.injEq]
  refine ⟨?_, ?_, ?_⟩
  · rw [length_dedup_filter_eq_card]
    congr 1
    ext a
    simp [List.mem_toFinset, List.mem_filter, List.mem_dedup, Finset.mem_sdiff]
  · rw [length_dedup_filter_eq_card]
    congr 1
    ext a
    simp [List.mem_toFinset, List.mem_filter, List.mem_dedup, Finset.mem_sdiff]
  · rw [length_dedup_filter_eq_card]
    congr 1
    ext a
    simp [List.mem_toFinset, List.mem_filter, List.mem_dedup, Finset.mem_inter]

theorem reconcile_idem (existing : List (String × ModelRecord)) (ids : List String) :
    reconcile (reconcile existing ids).1 ids =
      ((reconcile existing ids).1, ⟨0, 0, ids.dedup.length⟩) := by
  have hkeys : ∀ kv : String × ModelRecord,
      kv ∈ (reconcile existing ids).1 → kv.1 ∈ ids := by
    intro kv hkv
    exact (mem_keys_reconcile existing ids kv.1).mp (List.mem_map.mpr ⟨kv, hkv, rfl⟩)
  have hkeys' : ∀ k, k ∈ ids → k ∈ (reconcile existing ids).1.map Prod.fst :=
    fun k hk => (mem_keys_reconcile existing ids k).mpr hk
  set M := (reconcile existing ids).1 with hM
  rw [reconcile_eq M ids]
  have hfilter : M.filter (fun kv => decide (kv.1 ∈ ids.dedup)) = M :=
    List.filter_eq_self.mpr (fun kv hkv => by
      simp only [decide_eq_true_eq, List.mem_dedup]
      exact hkeys kv hkv)
  have hadd : ids.dedup.filter (fun i => decide (i ∉ (M.map Prod.fst).dedup)) = [] := by
    rw [List.filter_eq_nil_iff]
    intro a ha
    simp only [decide_eq_true_eq, List.mem_dedup, not_not]
    exact hkeys' a (List.mem_dedup.mp ha)
  have hrem : (M.map Prod.fst).dedup.filter (fun i => decide (i ∉ ids.dedup)) = [] := by
    rw [List.filter_eq_nil_iff]
    intro a ha
    simp only [decide_eq_true_eq, List.mem_dedup, not_not]
    obtain ⟨kv, hkv, rfl⟩ := List.mem_map.mp (List.mem_dedup.mp ha)
    exact hkeys kv hkv
  have hpres : (M.map Prod.fst).dedup.filter (fun i => decide (i ∈ ids.dedup)) =
      (M.map Prod.fst).dedup := by
    rw [List.filter_eq_self]
    intro a ha
    simp only [decide_eq_true_eq, List.mem_dedup]
    obtain ⟨kv, hkv, rfl⟩ := List.mem_map.mp (List.mem_dedup.mp ha)
    exact hkeys kv hkv
  have hlen : (M.map Prod.fst).dedup.length = ids.dedup.length := by
    have h1 : (M.map Prod.fst).toFinset = ids.toFinset := by
      ext a
      simp only [List.mem_toFinset]
      exact mem_keys_reconcile existing ids a
    calc (M.map Prod.fst).dedup.length
        = (M.map Prod.fst).toFinset.card := (List.card_toFinset _).symm
      _ = ids.toFinset.card := by rw [h1]
      _ = ids.dedup.length := List.card_toFinset _
  rw [hfilter, hadd, hrem, hpres, hlen]
  simp

theorem update_provider_models_ok {doc : Document} {pid : String} (ids : List String)
    {prov : Provider} (hprov : (get_providers doc).lookup pid = some prov) :
    update_provider_models doc pid ids =
      .ok ({ doc with provider? := some (alistSet (get_providers doc) pid
              { prov with models? := some (reconcile (prov.models?.getD []) ids).1 }) },
           (reconcile (prov.models?.getD []) ids).2) := by
  simp only [update_provider_models]
  rw [hprov]

theorem update_provider_models_err {doc : Document} {pid : String} (ids : List String)
    (h : (get_providers doc).lookup pid = none) :
    update_provider_models doc pid ids = .error (.providerNotFound pid) := by
  simp only [update_provider_models]
  rw [h]

/-! ### Claim theorems -/

theorem update_provider_models_fixpoint (d : Document) (pid : String)
    (ids : List String) (L : List (String × Provider)) (q : Provider)
    (M : List (String × ModelRecord))
    (hd : d.provider? = some L)
    (hq : L.lookup pid = some q)
    (hM : q.models? = some M)
    (hrec : (reconcile M ids).1 = M) :
    update_provider_models d pid ids = .ok (d, (reconcile M ids).2) := by
  have hgp : get_providers d = L := by simp [get_providers, hd]
  have hq' : (get_providers d).lookup pid = some q := by rw [hgp]; exact hq
  rw [update_provider_models_ok ids hq']
  have hqM : q.models?.getD [] = M := by rw [hM]; rfl
  rw [hqM]
  have hqeq : ({ q with models? := some (reconcile M ids).1 } : Provider) = q := by
    cases q with
    | mk m e =>
        simp only at hM
        simp only [hrec, hM]
  rw [hqeq, hgp, alistSet_eq_self hq]
  have hde : ({ d with provider? := some L } : Document) = d := by
    cases d with
    | mk m p e =>
        simp only at hd
        simp only [hd]
  rw [hde]

/-- C2: running `update_provider_models` twice with the same fetched id
list leaves the document exactly as it was after the first run; the
second run reports `added = 0`, `removed = 0`, and `preserved` equal to
the size of the fetched id set (`ids.dedup.length`). -/
theorem update_provider_models_idempotent (doc : Document) (pid : String)
    (ids : List String) (doc₁ : Document) (res₁ : UpdateResult)
    (h : update_provider_models doc pid ids = .ok (doc₁, res₁)) :
    update_provider_models doc₁ pid ids = .ok (doc₁, ⟨0, 0, ids.dedup.length⟩) := by
  cases hl : (get_providers doc).lookup pid with
  | none =>
      rw [update_provider_models_err ids hl] at h
      cases h
  | some prov =>
      rw [update_provider_models_ok ids hl] at h
      simp only [Except.ok.injEq, Prod.mk.injEq] at h
      obtain ⟨hdoc, hres⟩ := h
      have happly := update_provider_models_fixpoint doc₁ pid ids
          (alistSet (get_providers doc) pid
            { prov with models? := some (reconcile (prov.models?.getD []) ids).1 })
          { prov with models? := some (reconcile (prov.models?.getD []) ids).1 }
          (reconcile (prov.models?.getD []) ids).1
          (by rw [← hdoc])
          (alistSet_lookup_self _ _ _)
          rfl
          (by rw [reconcile_idem])
      rw [happly, reconcile_idem]

theorem update_provider_models_idempotent_witness :
    update_provider_models c2Doc "provider1" ["model2", "model3"] =
      .ok (c2Doc₁, ⟨1, 1, 1⟩) ∧
    update_provider_models c2Doc₁ "provider1" ["model2", "model3"] =
      .ok (c2Doc₁, ⟨0, 0, 2⟩) :=
  ⟨rfl, update_provider_models_idempotent c2Doc "provider1" ["model2", "model3"]
    c2Doc₁ ⟨1, 1, 1⟩ rfl⟩

theorem reconcile_lookup_added (existing : List (String × ModelRecord))
    (ids : List String) (m : String) (hm : m ∈ ids)
    (hne : m ∉ existing.map Prod.fst) :
    (reconcile existing ids).1.lookup m = some (defaultModelRecord m) := by
  rw [reconcile_eq]
  have h1 : (existing.filter (fun kv => decide (kv.1 ∈ ids.dedup))).lookup m = none := by
    rw [lookup_eq_none_iff]
    intro hmem
    apply hne
    obtain ⟨kv, hkv, rfl⟩ := List.mem_map.mp hmem
    exact List.mem_map.mpr ⟨kv, (List.mem_filter.mp hkv).1, rfl⟩
  rw [lookup_append_of_none _ h1, lookup_map_key, if_pos]
  rw [List.mem_filter]
  refine ⟨List.mem_dedup.mpr hm, ?_⟩
  simp only [decide_eq_true_eq, List.mem_dedup]
  exact hne

theorem reconcile_lookup_removed (existing : List (String × ModelRecord))
    (ids : List String) (m : String) (hm : m ∉ ids) :
    (reconcile existing ids).1.lookup m = none := by
  rw [lookup_eq_none_iff]
  intro hmem
  exact hm ((mem_keys_reconcile existing ids m).mp hmem)

theorem reconcile_lookup_preserved (existing : List (String × ModelRecord))
    (ids : List String) (m : String) (hm : m ∈ ids) (r : ModelRecord)
    (hr : existing.lookup m = some r) :
    (reconcile existing ids).1.lookup m = some r := by
  rw [reconcile_eq]
  have h1 : (existing.filter (fun kv => decide (kv.1 ∈ ids.dedup))).lookup m
      = existing.lookup m :=
    lookup_filter _ _ _ (fun v => by
      simp only [decide_eq_true_eq, List.mem_dedup]
      exact hm)
  exact lookup_append_of_some _ (h1.trans hr)

theorem getProviderModels_update (doc : Document) (pid : String) (prov' : Provider) :
    getProviderModels
        { doc with provider? := some (alistSet (get_providers doc) pid prov') } pid
      = prov'.models?.getD [] := by
  unfold getProviderModels
  rw [show get_providers
        { doc with provider? := some (alistSet (get_providers doc) pid prov') }
      = alistSet (get_providers doc) pid prov' from rfl, alistSet_lookup_self]

/-- C1: for a document containing provider `pid`, `update_provider_models`
deletes exactly the stored ids outside the fetched set, inserts exactly
the fetched ids not already stored (with the default record whose display
name is the id itself), leaves every other stored record in place, and
returns the counts `|fetched \ existing|`, `|existing \ fetched|`,
`|existing ∩ fetched|`. -/
theorem update_provider_models_spec (doc : Document) (pid : String)
    (ids : List String) (prov : Provider)
    (hprov : (get_providers doc).lookup pid = some prov) :
    ∃ doc' res, update_provider_models doc pid ids = .ok (doc', res) ∧
      (∀ m, m ∈ ids → m ∉ (prov.models?.getD []).map Prod.fst →
        (getProviderModels doc' pid).lookup m = some (defaultModelRecord m)) ∧
      (∀ m, m ∉ ids → (getProviderModels doc' pid).lookup m = none) ∧
      (∀ m r, m ∈ ids → (prov.models?.getD []).lookup m = some r →
        (getProviderModels doc' pid).lookup m = some r) ∧
      res.added = (ids.toFinset \ ((prov.models?.getD []).map Prod.fst).toFinset).card ∧
      res.removed = (((prov.models?.getD []).map Prod.fst).toFinset \ ids.toFinset).card ∧
      res.preserved = (((prov.models?.getD []).map Prod.fst).toFinset ∩ ids.toFinset).card := by
  refine ⟨_, _, update_provider_models_ok ids hprov, ?_, ?_, ?_, ?_, ?_, ?_⟩
  · intro m hm hne
    rw [getProviderModels_update]
    exact reconcile_lookup_added _ _ _ hm hne
  · intro m hm
    rw [getProviderModels_update]
    exact reconcile_lookup_removed _ _ _ hm
  · intro m r hm hr
    rw [getProviderModels_update]
    exact reconcile_lookup_preserved _ _ _ hm _ hr
  · rw [reconcile_counts]
  · rw [reconcile_counts]
  · rw [reconcile_counts]

theorem update_provider_models_spec_witness :
    (get_providers c1Doc).lookup "provider1" = some c1Prov ∧
    (∃ doc' res,
      update_provider_models c1Doc "provider1" ["model2", "model3"] = .ok (doc', res) ∧
      (∀ m, m ∈ ["model2", "model3"] → m ∉ (c1Prov.models?.getD []).map Prod.fst →
        (getProviderModels doc' "provider1").lookup m = some (defaultModelRecord m)) ∧
      (∀ m, m ∉ ["model2", "model3"] →
        (getProviderModels doc' "provider1").lookup m = none) ∧
      (∀ m r, m ∈ ["model2", "model3"] →
        (c1Prov.models?.getD []).lookup m = some r →
        (getProviderModels doc' "provider1").lookup m = some r) ∧
      res.added = ((["model2", "model3"] : List String).toFinset \
        ((c1Prov.models?.getD []).map Prod.fst).toFinset).card ∧
      res.removed = (((c1Prov.models?.getD []).map Prod.fst).toFinset \
        (["model2", "model3"] : List String).toFinset).card ∧
      res.preserved = (((c1Prov.models?.getD []).map Prod.fst).toFinset ∩
        (["model2", "model3"] : List String).toFinset).card) :=
  ⟨rfl, update_provider_models_spec c1Doc "provider1" ["model2", "model3"] c1Prov rfl⟩

/-- C3: a stored model record whose id is in the fetched set survives
`update_provider_models` completely unchanged — neither deleted nor reset
to the default id-as-name record. -/
theorem update_preserves_model_record (doc : Document) (pid : String)
    (ids : List String) (prov : Provider) (mid : String) (r : ModelRecord)
    (hprov : (get_providers doc).lookup pid = some prov)
    (hr : (prov.models?.getD []).lookup mid = some r)
    (hm : mid ∈ ids) :
    ∃ doc' res, update_provider_models doc pid ids = .ok (doc', res) ∧
      (getProviderModels doc' pid).lookup mid = some r := by
  refine ⟨_, _, update_provider_models_ok ids hprov, ?_⟩
  rw [getProviderModels_update]
  exact reconcile_lookup_preserved _ _ _ hm _ hr

theorem update_preserves_model_record_witness :
    ((get_providers c3Doc).lookup "providerA" = some c3Prov ∧
      (c3Prov.models?.getD []).lookup "modelA" = some c3Record ∧
      "modelA" ∈ ["modelA", "modelB"]) ∧
    (∃ doc' res,
      update_provider_models c3Doc "providerA" ["modelA", "modelB"] = .ok (doc', res) ∧
      (getProviderModels doc' "providerA").lookup "modelA" = some c3Record) :=
  ⟨⟨rfl, rfl, by decide⟩,
    update_preserves_model_record c3Doc "providerA" ["modelA", "modelB"]
      c3Prov "modelA" c3Record rfl rfl (by decide)⟩

/-- C10: when the provider exists but has no `"models"` key at all,
`update_provider_models` treats the existing set as empty: every distinct
fetched id is added with the default record, the counts are
`{added = |fetched|, removed = 0, preserved = 0}`, and afterwards the
provider record carries a `"models"` dictionary. -/
theorem update_creates_models_map (doc : Document) (pid : String)
    (ids : List String) (prov : Provider)
    (hprov : (get_providers doc).lookup pid = some prov)
    (hnone : prov.models? = none) :
    ∃ doc', update_provider_models doc pid ids =
        .ok (doc', ⟨ids.dedup.length, 0, 0⟩) ∧
      ∃ p', (get_providers doc').lookup pid = some p' ∧
        p'.models? = some (ids.dedup.map (fun i => (i, defaultModelRecord i))) := by
  have hM : prov.models?.getD [] = [] := by rw [hnone]; rfl
  have hrec : reconcile [] ids =
      (ids.dedup.map (fun i => (i, defaultModelRecord i)),
       ⟨ids.dedup.length, 0, 0⟩) := by
    rw [reconcile_eq]
    simp [List.filter_eq_self]
  have h := update_provider_models_ok ids hprov
  rw [hM, hrec] at h
  exact ⟨_, h, _, alistSet_lookup_self _ _ _, rfl⟩

theorem update_creates_models_map_witness :
    ((get_providers c10Doc).lookup "providerN" = some c10Prov ∧
      c10Prov.models? = none) ∧
    (∃ doc', update_provider_models c10Doc "providerN" ["a", "b", "a"] =
        .ok (doc', ⟨(["a", "b", "a"] : List String).dedup.length, 0, 0⟩) ∧
      ∃ p', (get_providers doc').lookup "providerN" = some p' ∧
        p'.models? = some ((["a", "b", "a"] : List String).dedup.map
          (fun i => (i, defaultModelRecord i)))) :=
  ⟨⟨rfl, rfl⟩,
    update_creates_models_map c10Doc "providerN" ["a", "b", "a"] c10Prov rfl rfl⟩

/-- C6: the three reconciliation classes partition `existing ∪ fetched`:
the reported counts are the cardinalities of `fetched \ existing`,
`existing \ fetched` and `existing ∩ fetched`, they sum to
`|existing ∪ fetched|`, and the added and removed classes are disjoint. -/
theorem update_counts_partition (doc : Document) (pid : String) (ids : List String)
    (doc' : Document) (res : UpdateResult)
    (h : update_provider_models doc pid ids = .ok (doc', res)) :
    res.added =
      (ids.toFinset \ ((getProviderModels doc pid).map Prod.fst).toFinset).card ∧
    res.removed =
      (((getProviderModels doc pid).map Prod.fst).toFinset \ ids.toFinset).card ∧
    res.preserved =
      (((getProviderModels doc pid).map Prod.fst).toFinset ∩ ids.toFinset).card ∧
    res.added + res.removed + res.preserved =
      (((getProviderModels doc pid).map Prod.fst).toFinset ∪ ids.toFinset).card ∧
    Disjoint (ids.toFinset \ ((getProviderModels doc pid).map Prod.fst).toFinset)
      (((getProviderModels doc pid).map Prod.fst).toFinset \ ids.toFinset) := by
  cases hl : (get_providers doc).lookup pid with
  | none =>
      rw [update_provider_models_err ids hl] at h
      cases h
  | some prov =>
      have hgm : getProviderModels doc pid = prov.models?.getD [] := by
        unfold getProviderModels
        rw [hl]
      rw [update_provider_models_ok ids hl] at h
      simp only [Except.ok.injEq, Prod.mk.injEq] at h
      obtain ⟨hdoc, hres⟩ := h
      subst hres
      rw [hgm, reconcile_counts]
      set E := ((prov.models?.getD []).map Prod.fst).toFinset with hE
      set F := ids.toFinset with hF
      have h1 := Finset.card_sdiff_add_card_inter E F
      have h2 := Finset.card_sdiff_add_card F E
      rw [Finset.union_comm F E] at h2
      refine ⟨rfl, rfl, rfl, ?_, disjoint_sdiff_sdiff⟩
      show (F \ E).card + (E \ F).card + (E ∩ F).card = (E ∪ F).card
      omega

theorem update_counts_partition_witness :
    update_provider_models c6Doc "p1" ["m2", "m3", "m3"] = .ok (c6Doc', ⟨1, 1, 1⟩) ∧
    ((UpdateResult.mk 1 1 1).added =
      ((["m2", "m3", "m3"] : List String).toFinset \
        ((getProviderModels c6Doc "p1").map Prod.fst).toFinset).card ∧
     (UpdateResult.mk 1 1 1).removed =
      (((getProviderModels c6Doc "p1").map Prod.fst).toFinset \
        (["m2", "m3", "m3"] : List String).toFinset).card ∧
     (UpdateResult.mk 1 1 1).preserved =
      (((getProviderModels c6Doc "p1").map Prod.fst).toFinset ∩
        (["m2", "m3", "m3"] : List String).toFinset).card ∧
     (UpdateResult.mk 1 1 1).added + (UpdateResult.mk 1 1 1).removed +
        (UpdateResult.mk 1 1 1).preserved =
      (((getProviderModels c6Doc "p1").map Prod.fst).toFinset ∪
        (["m2", "m3", "m3"] : List String).toFinset).card ∧
     Disjoint ((["m2", "m3", "m3"] : List String).toFinset \
        ((getProviderModels c6Doc "p1").map Prod.fst).toFinset)
      (((getProviderModels c6Doc "p1").map Prod.fst).toFinset \
        (["m2", "m3", "m3"] : List String).toFinset)) :=
  ⟨rfl, update_counts_partition c6Doc "p1" ["m2", "m3", "m3"] c6Doc' ⟨1, 1, 1⟩ rfl⟩

theorem deleteModelFromProvider_found (p : Provider) (mid : String) :
    (deleteModelFromProvider p mid).2 =
      decide (mid ∈ (p.models?.getD []).map Prod.fst) := by
  cases hp : p.models? with
  | none => simp [deleteModelFromProvider, hp]
  | some ms =>
      simp only [deleteModelFromProvider, hp, Option.getD_some]
      by_cases h : mid ∈ ms.map Prod.fst
      · rw [if_pos h]
        simp [h]
      · rw [if_neg h]
        simp [h]

theorem deleteModelFromProvider_extra (p : Provider) (mid : String) :
    (deleteModelFromProvider p mid).1.extra = p.extra := by
  cases hp : p.models? with
  | none => simp [deleteModelFromProvider, hp]
  | some ms =>
      simp only [deleteModelFromProvider, hp]
      by_cases h : mid ∈ ms.map Prod.fst
      · rw [if_pos h]
      · rw [if_neg h]

theorem deleteModelFromProvider_models (p : Provider) (mid : String) :
    (deleteModelFromProvider p mid).1.models? =
      p.models?.map (fun ms => ms.filter (fun kv => decide (kv.1 ≠ mid))) := by
  cases hp : p.models? with
  | none => simp [deleteModelFromProvider, hp]
  | some ms =>
      simp only [deleteModelFromProvider, hp, Option.map_some']
      by_cases h : mid ∈ ms.map Prod.fst
      · rw [if_pos h]
      · rw [if_neg h]
        have hms : ((p, false) : Provider × Bool).1.models? = some ms := hp
        rw [hms]
        congr 1
        refine (List.filter_eq_self.mpr (fun kv hkv => ?_)).symm
        simp only [decide_eq_true_eq]
        intro he
        exact h (he ▸ List.mem_map.mpr ⟨kv, hkv, rfl⟩)

theorem delete_model_found_eq (doc : Document) (mid : String) :
    ((get_providers doc).map (fun x => (x.1, deleteModelFromProvider x.2 mid))).any
        (fun x => x.2.2) = modelExistsSomewhere doc mid := by
  unfold modelExistsSomewhere
  induction get_providers doc with
  | nil => rfl
  | cons y l ih =>
      simp only [List.map_cons, List.any_cons, ih, deleteModelFromProvider_found]

theorem mid_not_mem_filtered (ms : List (String × ModelRecord)) (mid : String) :
    mid ∉ (ms.filter (fun kv => decide (kv.1 ≠ mid))).map Prod.fst := by
  intro h
  obtain ⟨kv, hkv, rfl⟩ := List.mem_map.mp h
  have h2 := (List.mem_filter.mp hkv).2
  simp at h2

/-- C4: if any provider contains the model id, `delete_model` succeeds,
keeps the selection and every other top-level field, removes exactly the
entries keyed by that id from every provider's model dictionary (leaving
each provider's other models and fields intact), and afterwards no
provider contains the id; if no provider contains the id, it fails with
`ModelNotFound` and produces no document (nothing is saved). -/
theorem delete_model_spec (doc : Document) (mid : String) :
    (modelExistsSomewhere doc mid = true →
      ∃ doc', delete_model doc mid = .ok doc' ∧
        doc'.model? = doc.model? ∧
        doc'.extra = doc.extra ∧
        List.Forall₂ (fun old new : String × Provider =>
            new.1 = old.1 ∧
            new.2.extra = old.2.extra ∧
            new.2.models? = old.2.models?.map
              (fun ms => ms.filter (fun kv => decide (kv.1 ≠ mid))))
          (get_providers doc) (get_providers doc') ∧
        modelExistsSomewhere doc' mid = false) ∧
    (modelExistsSomewhere doc mid = false →
      delete_model doc mid = .error (.modelNotFound mid)) := by
  constructor
  · intro hex
    have heq : delete_model doc mid =
        .ok { doc with provider? := some (deletedProviders doc mid) } := by
      simp only [delete_model, deletedProviders]
      rw [if_pos ((delete_model_found_eq doc mid).trans hex)]
    have hgp : get_providers
        { doc with provider? := some (deletedProviders doc mid) } =
        deletedProviders doc mid := rfl
    refine ⟨_, heq, rfl, rfl, ?_, ?_⟩
    · rw [hgp]
      unfold deletedProviders
      rw [List.map_map, List.forall₂_map_right_iff, List.forall₂_same]
      intro x _
      exact ⟨rfl, deleteModelFromProvider_extra _ _, deleteModelFromProvider_models _ _⟩
    · unfold modelExistsSomewhere
      rw [hgp]
      unfold deletedProviders
      rw [List.map_map, List.any_eq_false]
      intro x hx
      obtain ⟨y, _, rfl⟩ := List.mem_map.mp hx
      simp only [Function.comp_apply, decide_eq_true_eq]
      rw [deleteModelFromProvider_models]
      cases hy : y.2.models? with
      | none => simp
      | some ms =>
          simp only [Option.map_some', Option.getD_some]
          exact mid_not_mem_filtered ms mid
  · intro hex
    simp only [delete_model]
    rw [if_neg]
    rw [delete_model_found_eq, hex]
    simp

theorem delete_model_spec_witness :
    (modelExistsSomewhere c4Doc "m-shared" = true ∧
      (∃ doc', delete_model c4Doc "m-shared" = .ok doc' ∧
        doc'.model? = c4Doc.model? ∧
        doc'.extra = c4Doc.extra ∧
        List.Forall₂ (fun old new : String × Provider =>
            new.1 = old.1 ∧
            new.2.extra = old.2.extra ∧
            new.2.models? = old.2.models?.map
              (fun ms => ms.filter (fun kv => decide (kv.1 ≠ "m-shared"))))
          (get_providers c4Doc) (get_providers doc') ∧
        modelExistsSomewhere doc' "m-shared" = false)) ∧
    (modelExistsSomewhere c4Doc "m-none" = false ∧
      delete_model c4Doc "m-none" = .error (.modelNotFound "m-none")) :=
  ⟨⟨by decide, (delete_model_spec c4Doc "m-shared").1 (by decide)⟩,
   ⟨by decide, (delete_model_spec c4Doc "m-none").2 (by decide)⟩⟩

/-- C8: on a document with no `"provider"` key, the query operations are
total and empty: `get_providers` and `get_all_models` return empty
mappings and `validate_provider_model` is false for every pair. -/
theorem empty_document_queries (doc : Document) (h : doc.provider? = none) :
    get_providers doc = [] ∧ get_all_models doc = [] ∧
    ∀ p m, validate_provider_model doc p m = false := by
  have h1 : get_providers doc = [] := by
    rw [get_providers, h]
    rfl
  refine ⟨h1, ?_, ?_⟩
  · rw [get_all_models, h1]
    rfl
  · intro p m
    simp [validate_provider_model, get_all_models, h1]

theorem empty_document_queries_witness :
    c8Doc.provider? = none ∧
    (get_providers c8Doc = [] ∧ get_all_models c8Doc = [] ∧
      ∀ p m, validate_provider_model c8Doc p m = false) :=
  ⟨rfl, empty_document_queries c8Doc rfl⟩

/-- C5: `change_model` only writes the selection when the stripped
provider/model pair passes `validate_provider_model`; when validation
fails it rejects with `InvalidSelection` and produces no document, so the
stored selection keeps its prior value. -/
theorem change_model_validates (doc : Document) (v : String) :
    (∀ doc', change_model doc v = .ok doc' →
      ∃ parts, splitFirst v = some parts ∧
        validate_provider_model doc (pyStrip parts.1) (pyStrip parts.2) = true ∧
        doc' = update_model doc (pyStrip parts.1 ++ "/" ++ pyStrip parts.2)) ∧
    (∀ l r, splitFirst v = some (l, r) →
      validate_provider_model doc (pyStrip l) (pyStrip r) = false →
      change_model doc v = .error (.invalidSelection (pyStrip l) (pyStrip r))) := by
  constructor
  · intro doc' h
    cases hs : splitFirst v with
    | none =>
        simp only [change_model, hs] at h
        cases h
    | some parts =>
        simp only [change_model, hs] at h
        by_cases hv : validate_provider_model doc (pyStrip parts.1) (pyStrip parts.2) = true
        · rw [if_pos hv] at h
          simp only [Except.ok.injEq] at h
          exact ⟨parts, rfl, hv, h.symm⟩
        · rw [if_neg hv] at h
          cases h
  · intro l r hs hv
    simp only [change_model, hs]
    have hnv : ¬ (validate_provider_model doc (pyStrip l) (pyStrip r) = true) := by
      rw [hv]
      simp
    rw [if_neg hnv]

theorem change_model_validates_witness :
    (splitFirst "provider1/invalid_model" = some ("provider1", "invalid_model") ∧
      validate_provider_model c5Doc (pyStrip "provider1")
        (pyStrip "invalid_model") = false) ∧
    change_model c5Doc "provider1/invalid_model" =
      .error (.invalidSelection (pyStrip "provider1") (pyStrip "invalid_model")) :=
  ⟨⟨by decide, by decide⟩,
    (change_model_validates c5Doc "provider1/invalid_model").2
      "provider1" "invalid_model" (by decide) (by decide)⟩

theorem splitFirstAux_append (a b : List Char) (h : '/' ∉ a) :
    splitFirstAux (a ++ '/' :: b) = some (a, b) := by
  induction a with
  | nil => simp [splitFirstAux]
  | cons c cs ih =>
      have hc : c ≠ '/' := fun hh => h (hh ▸ List.mem_cons_self c cs)
      rw [List.cons_append]
      simp only [splitFirstAux, if_neg hc]
      rw [ih (fun hm => h (List.mem_cons_of_mem c hm))]
      rfl

theorem string_data_append (x y : String) : (x ++ y).data = x.data ++ y.data := by
  cases x
  cases y
  rfl

theorem splitFirst_append (a b : String) (h : '/' ∉ a.data) :
    splitFirst (a ++ "/" ++ b) = some (a, b) := by
  have hdata : (a ++ "/" ++ b).data = a.data ++ '/' :: b.data := by
    rw [string_data_append, string_data_append]
    have h1 : ("/" : String).data = ['/'] := rfl
    rw [h1, List.append_assoc]
    rfl
  rw [splitFirst, hdata, splitFirstAux_append a.data b.data h]
  rfl

/-- C9: `change_model` splits its argument at the first `/` only (so the
model half may itself contain `/`), strips surrounding whitespace from
both halves before validating, and persists the normalized
`stripped-provider/stripped-model` string — two inputs differing only in
surrounding whitespace behave identically. -/
theorem change_model_normalizes (doc : Document) (a₁ b₁ a₂ b₂ : String)
    (h₁ : '/' ∉ a₁.data) (h₂ : '/' ∉ a₂.data)
    (ha : pyStrip a₁ = pyStrip a₂) (hb : pyStrip b₁ = pyStrip b₂) :
    splitFirst (a₁ ++ "/" ++ b₁) = some (a₁, b₁) ∧
    change_model doc (a₁ ++ "/" ++ b₁) = change_model doc (a₂ ++ "/" ++ b₂) ∧
    ∀ doc', change_model doc (a₁ ++ "/" ++ b₁) = .ok doc' →
      doc' = { doc with model? := some (pyStrip a₁ ++ "/" ++ pyStrip b₁) } := by
  refine ⟨splitFirst_append a₁ b₁ h₁, ?_, ?_⟩
  · simp only [change_model, splitFirst_append a₁ b₁ h₁,
      splitFirst_append a₂ b₂ h₂, ha, hb]
  · intro doc' h
    simp only [change_model, splitFirst_append a₁ b₁ h₁] at h
    by_cases hv : validate_provider_model doc (pyStrip a₁) (pyStrip b₁) = true
    · rw [if_pos hv] at h
      simp only [Except.ok.injEq] at h
      exact h.symm
    · rw [if_neg hv] at h
      cases h

theorem change_model_normalizes_witness :
    ('/' ∉ (" providerZ\x0b" : String).data ∧ '/' ∉ ("providerZ" : String).data ∧
      pyStrip " providerZ\x0b" = pyStrip "providerZ" ∧
      pyStrip "\xa0qwen/3-32b " = pyStrip "qwen/3-32b") ∧
    (splitFirst (" providerZ\x0b" ++ "/" ++ "\xa0qwen/3-32b ") =
        some (" providerZ\x0b", "\xa0qwen/3-32b ") ∧
     change_model c9Doc (" providerZ\x0b" ++ "/" ++ "\xa0qwen/3-32b ") =
        change_model c9Doc ("providerZ" ++ "/" ++ "qwen/3-32b") ∧
     ∀ doc', change_model c9Doc (" providerZ\x0b" ++ "/" ++ "\xa0qwen/3-32b ") = .ok doc' →
        doc' = update_model c9Doc
          (pyStrip " providerZ\x0b" ++ "/" ++ pyStrip "\xa0qwen/3-32b ")) :=
  ⟨⟨by decide, by decide, by decide, by decide⟩,
   change_model_normalizes c9Doc " providerZ\x0b" "\xa0qwen/3-32b "
     "providerZ" "qwen/3-32b"
     (by decide) (by decide) (by decide) (by decide)⟩

/-- C7 counterexample: `ConfigManager` constructed without a path resolves
its backing file relative to the current working directory — it differs
from the per-user location and changes when the working directory does. -/
theorem configManagerInitPath_cwd_counterexample :
    configManagerInitPath none ["/tmp"] ≠ cliDefaultConfigPath ["/home/user"] ∧
    configManagerInitPath none ["/dirA"] ≠ configManagerInitPath none ["/dirB"] := by
  constructor
  · decide
  · decide

/-- C7 amended: without a caller-supplied path `ConfigManager` defaults to
`config.json` in the current working directory; the fixed per-user
location `~/.config/opencode/config.json` is supplied by the CLI entry
point `main`, which passes it whenever `--config` is absent. -/
theorem configManagerInitPath_amended (cwd home p : FsPath) :
    configManagerInitPath none cwd = cwd ++ ["config.json"] ∧
    configManagerInitPath (some p) cwd = p ∧
    mainConfigPath none home = home ++ [".config", "opencode", "config.json"] ∧
    mainConfigPath (some p) home = p :=
  ⟨rfl, rfl, rfl, rfl⟩
